import Mathlib

/-!
Verification of the channel-selection and pixel codec layer of an
OpenEXR-style image library, shallowly embedded from
`src/image/read/specific_channels.rs` and `src/image/write/layers.rs`.

Machine integers (`usize`) are modelled as `Nat`; raw bytes as `Nat`;
fallible code returns `Except Error`; panics are modelled explicitly
(`Option` for the write path, a `panicked` constructor for the block
decode loop).
-/

namespace ExrSpec

/-- Two-dimensional size / position, mirroring `math::Vec2<usize>`. -/
structure Vec2 where
  x : Nat
  y : Nat
deriving DecidableEq

/-- `Vec2::area`, width times height. -/
def Vec2.area (v : Vec2) : Nat := v.x * v.y

/-- The three sample encodings of `meta::attribute::SampleType`. -/
inductive SampleType
  | F16
  | F32
  | U32
deriving DecidableEq

/-- Modelled from the spec: `SampleType::bytes_per_sample` lives in the
`meta` module outside this component; the spec fixes the byte widths as
2 for F16, 4 for F32 and 4 for U32. -/
def SampleType.bytes_per_sample : SampleType → Nat
  | .F16 => 2
  | .F32 => 4
  | .U32 => 4

/-- One channel's metadata (`ChannelInfo`): its name and sample encoding.
Only the fields this component inspects are modelled. -/
structure ChannelInfo where
  name : String
  sample_type : SampleType
deriving DecidableEq

/-- The layer's channel list (`ChannelList`), with its precomputed
`bytes_per_pixel` field, as consumed by this component. -/
structure ChannelList where
  list : List ChannelInfo
  bytes_per_pixel : Nat
deriving DecidableEq

/-- The slice of `meta::header::Header` that this component reads. -/
structure Header where
  channels : ChannelList
  layer_size : Vec2
  deep : Bool
deriving DecidableEq

/-- `block::BlockIndex`: which layer a block belongs to, its absolute
pixel position and its pixel size. -/
structure BlockIndex where
  layer : Nat
  pixel_position : Vec2
  pixel_size : Vec2
deriving DecidableEq

/-- `block::UncompressedBlock`: a block index plus the decoded bytes. -/
structure UncompressedBlock where
  index : BlockIndex
  data : List Nat
deriving DecidableEq

/-- Modelled from the spec: `block::chunk::TileCoordinates` is outside
this component; the spec only needs its resolution-level index, where the
base (largest) level is level index (0, 0). -/
structure TileCoordinates where
  tile_index : Vec2
  level_index : Vec2
deriving DecidableEq

/-- The error type (`error::Error`); this component only ever constructs
the `invalid` variant carrying a static message. -/
inductive Error
  | invalid (msg : String)
deriving DecidableEq

/-- A decoded sample (`block::samples::Sample`). The claims never inspect
floating-point semantics, so each variant carries the raw value bits as
assembled from the bytes. -/
inductive Sample
  | f16 (v : Nat)
  | f32 (v : Nat)
  | u32 (v : Nat)
deriving DecidableEq

/-- Little-endian assembly of a byte list into a `Nat`. -/
def leBytesToNat : List Nat → Nat
  | [] => 0
  | b :: rest => b + 256 * leBytesToNat rest

/-- Modelled from the spec: the per-sample byte decoders (`f16::read`,
`f32::read`, `u32::read` of the `io` module) are outside this component.
Per the spec, a (possibly clamped/truncated) byte run is interpreted per
the declared numeric encoding and never surfaces an error — an overrun
"can silently yield degenerate (garbage) sample values". -/
def decodeSample (st : SampleType) (bytes : List Nat) : Sample :=
  match st with
  | .F16 => .f16 (leBytesToNat (bytes.take 2))
  | .F32 => .f32 (leBytesToNat (bytes.take 4))
  | .U32 => .u32 (leBytesToNat (bytes.take 4))

/-- Modelled from the spec: the fallible read wrapper around
`decodeSample`; per the spec it is total (never returns an error). -/
def readSample (st : SampleType) (bytes : List Nat) : Except Error Sample :=
  .ok (decodeSample st bytes)

/-- `ChannelIndexInfo`: one resolved channel — its descriptor, its
cumulative per-pixel byte offset, and its index in the channel list. -/
structure ChannelIndexInfo where
  info : ChannelInfo
  sample_byte_offset : Nat
  channel_index : Nat
deriving DecidableEq

/-- The scan loop of `inspect_channels` (`specific_channels.rs:300-316`):
walks the channel list once, accumulating the cumulative byte offset, and
assigns each entry to the first selection slot whose requested name
matches (an exclusive if/else-if chain, which overwrites the slot on a
repeated name). -/
def inspectLoop (n0 n1 n2 : String) :
    List ChannelInfo → Nat → Nat →
    Option ChannelIndexInfo × Option ChannelIndexInfo × Option ChannelIndexInfo →
    Option ChannelIndexInfo × Option ChannelIndexInfo × Option ChannelIndexInfo
  | [], _, _, result => result
  | ch :: rest, channel_index, byte_offset, result =>
    let chan_info : ChannelIndexInfo := ⟨ch, byte_offset, channel_index⟩
    let result2 :=
      if ch.name = n0 then (some chan_info, result.2.1, result.2.2)
      else if ch.name = n1 then (result.1, some chan_info, result.2.2)
      else if ch.name = n2 then (result.1, result.2.1, some chan_info)
      else result
    inspectLoop n0 n1 n2 rest (channel_index + 1)
      (byte_offset + ch.sample_type.bytes_per_sample) result2

/-- Whether a selection slot was declared required (`ChannelParameter for
Sample`) or optional (`ChannelParameter for Option<Sample>`). -/
inductive SlotKind
  | required
  | optional
deriving DecidableEq

/-- The per-slot `SampleType` associated type: `ChannelInfo` for a
required slot, `Option<ChannelInfo>` for an optional slot. -/
inductive SlotSampleType
  | req (info : ChannelInfo)
  | opt (info : Option ChannelInfo)
deriving DecidableEq

/-- The per-slot `ChannelPixelReader` associated type: `ChannelIndexInfo`
for a required slot, `Option<ChannelIndexInfo>` for an optional slot. -/
inductive SlotPixelReader
  | req (info : ChannelIndexInfo)
  | opt (info : Option ChannelIndexInfo)
deriving DecidableEq

/-- The fixed message of the missing-required-channel error
(`specific_channels.rs:239`). -/
def missingChannelMsg : String :=
  "layer does not contain all of the specified required channels"

/-- `ChannelParameter::create_channel_pixel_reader`
(`specific_channels.rs:234-249`): a required slot fails with the fixed
invalid-input error when unmatched; an optional slot resolves to the
`none` placeholders when unmatched. -/
def create_channel_pixel_reader (kind : SlotKind) (info : Option ChannelIndexInfo) :
    Except Error (SlotSampleType × SlotPixelReader) :=
  match kind, info with
  | .required, some i => .ok (.req i.info, .req i)
  | .required, none => .error (.invalid missingChannelMsg)
  | .optional, i => .ok (.opt (i.map (·.info)), .opt i)

/-- `inspect_channels` (`specific_channels.rs:300-327`): scan the list,
then finalize each of the three selection slots in order. -/
def inspect_channels (names : String × String × String)
    (kinds : SlotKind × SlotKind × SlotKind) (channels : ChannelList) :
    Except Error ((SlotSampleType × SlotSampleType × SlotSampleType) ×
      (SlotPixelReader × SlotPixelReader × SlotPixelReader)) :=
  let result := inspectLoop names.1 names.2.1 names.2.2 channels.list 0 0 (none, none, none)
  match create_channel_pixel_reader kinds.1 result.1 with
  | .error e => .error e
  | .ok (ta, ra) =>
    match create_channel_pixel_reader kinds.2.1 result.2.1 with
    | .error e => .error e
    | .ok (tb, rb) =>
      match create_channel_pixel_reader kinds.2.2 result.2.2 with
      | .error e => .error e
      | .ok (tc, rc) => .ok ((ta, tb, tc), (ra, rb, rc))

/-- `ChannelPixelReader<Sample> for ChannelIndexInfo::create_channel_line_reader`
(`specific_channels.rs:251-257`): a per-row cursor starts at the channel's
cumulative per-pixel byte offset times the row's pixel count. -/
def create_channel_line_reader (i : ChannelIndexInfo) (pixel_count : Nat) :
    SampleType × Nat :=
  (i.info.sample_type, i.sample_byte_offset * pixel_count)

/-- `ChannelPixelReader<Option<Sample>> for Option<ChannelIndexInfo>`
(`specific_channels.rs:259-266`). -/
def create_channel_line_reader_opt (i : Option ChannelIndexInfo) (line_width : Nat) :
    Option (SampleType × Nat) :=
  i.map (fun this => create_channel_line_reader this line_width)

/-- A per-slot line cursor: `(SampleType, usize)` for a required slot,
`Option<(SampleType, usize)>` for an optional slot. -/
inductive SlotLineReader
  | req (s : SampleType × Nat)
  | opt (s : Option (SampleType × Nat))
deriving DecidableEq

/-- A per-slot decoded value: `Sample` for a required slot,
`Option<Sample>` for an optional slot. -/
inductive SlotSample
  | req (s : Sample)
  | opt (s : Option Sample)
deriving DecidableEq

/-- Dispatch of `create_channel_line_reader` over the two slot kinds. -/
def SlotPixelReader.create_channel_line_reader :
    SlotPixelReader → Nat → SlotLineReader
  | .req i, w => .req (ExrSpec.create_channel_line_reader i w)
  | .opt i, w => .opt (create_channel_line_reader_opt i w)

/-- `ChannelLineReader<Sample> for (SampleType, usize)::read_next_sample`
(`specific_channels.rs:268-281`): clamp the byte index to the end of the
row buffer, advance the index by the sample's byte width, and decode one
sample from the clamped position. -/
def read_next_sample (s : SampleType × Nat) (bytes : List Nat) :
    Except Error Sample × (SampleType × Nat) :=
  let sliced := bytes.drop (min s.2 bytes.length)
  (readSample s.1 sliced, (s.1, s.2 + s.1.bytes_per_sample))

/-- `ChannelLineReader<Option<Sample>> for Option<(SampleType, usize)>`
(`specific_channels.rs:283-289`): an absent slot yields no value and
leaves its (empty) state untouched; a present slot defers to the required
reader. -/
def read_next_sample_opt (s : Option (SampleType × Nat)) (bytes : List Nat) :
    Except Error (Option Sample) × Option (SampleType × Nat) :=
  match s with
  | none => (.ok none, none)
  | some this =>
    let (r, s2) := read_next_sample this bytes
    (r.map some, some s2)

/-- Dispatch of `read_next_sample` over the two slot kinds. -/
def SlotLineReader.read_next_sample :
    SlotLineReader → List Nat → Except Error SlotSample × SlotLineReader
  | .req s, bytes =>
    let (r, s2) := ExrSpec.read_next_sample s bytes
    (r.map SlotSample.req, .req s2)
  | .opt s, bytes =>
    let (r, s2) := read_next_sample_opt s bytes
    (r.map SlotSample.opt, .opt s2)

/-- A whole decoded pixel of the three-slot selection. -/
abbrev Pixel3 := SlotSample × SlotSample × SlotSample

/-- The three per-slot line cursors of one row. -/
abbrev LineReader3 := SlotLineReader × SlotLineReader × SlotLineReader

/-- The three per-slot pixel readers of one layer. -/
abbrev PixelReader3 := SlotPixelReader × SlotPixelReader × SlotPixelReader

/-- `PixelReader::create_pixel_reader_for_line`
(`specific_channels.rs:344-350`): clone each slot's pixel reader into a
fresh per-row line cursor. -/
def create_pixel_reader_for_line (pr : PixelReader3) (pixel_count : Nat) :
    LineReader3 :=
  (pr.1.create_channel_line_reader pixel_count,
   pr.2.1.create_channel_line_reader pixel_count,
   pr.2.2.create_channel_line_reader pixel_count)

/-- `PixelLineReader::read_next_pixel` (`specific_channels.rs:361-367`):
decode the three slots left to right over the same row buffer, each
advancing its own cursor; a slot error aborts the pixel but keeps the
cursor advances made so far. -/
def read_next_pixel (r : LineReader3) (bytes : List Nat) :
    Except Error Pixel3 × LineReader3 :=
  let (ra, a2) := r.1.read_next_sample bytes
  match ra with
  | .error e => (.error e, (a2, r.2.1, r.2.2))
  | .ok sa =>
    let (rb, b2) := r.2.1.read_next_sample bytes
    match rb with
    | .error e => (.error e, (a2, b2, r.2.2))
    | .ok sb =>
      let (rc, c2) := r.2.2.read_next_sample bytes
      match rc with
      | .error e => (.error e, (a2, b2, c2))
      | .ok sc => (.ok (sa, sb, sc), (a2, b2, c2))

/-- `slice::chunks_exact`: the contiguous full chunks of size `n`, any
remainder ignored. The Rust call panics on `n = 0`; `read_block` models
that panic before calling this function. -/
def chunksExact (n : Nat) (l : List Nat) : List (List Nat) :=
  if _h : 0 < n ∧ n ≤ l.length then
    l.take n :: chunksExact n (l.drop n)
  else []
termination_by l.length
decreasing_by
  simp only [List.length_drop]
  omega

/-- Outcome of one mutation pass over the pixel storage: normal
completion, an error return (with the storage as mutated so far), or a
panic (with the storage as mutated so far). -/
inductive BlockOutcome (σ : Type)
  | ok (s : σ)
  | err (e : Error) (s : σ)
  | panicked (msg : String) (s : σ)
deriving DecidableEq

/-- Intermediate result of the row/column loops. -/
inductive LoopResult (σ : Type)
  | ok (s : σ)
  | err (e : Error) (s : σ)
deriving DecidableEq

/-- The column loop of `read_block` (`specific_channels.rs:192-196`): for
each `x`, decode one pixel from the row buffer and store it at
`pixel_position + (x, y)`. -/
def runLine {L Px σ : Type} (read_next : L → List Nat → Except Error Px × L)
    (set_px : σ → Vec2 → Px → σ) (line : List Nat) (base : Vec2) (y : Nat) :
    List Nat → L → σ → LoopResult σ
  | [], _, s => .ok s
  | x :: xs, r, s =>
    match read_next r line with
    | (.error e, _) => .err e s
    | (.ok px, r2) =>
      runLine read_next set_px line base y xs r2
        (set_px s ⟨base.x + x, base.y + y⟩ px)

/-- The row loop of `read_block` (`specific_channels.rs:189-197`): each
row starts from a fresh clone of the initial per-row line cursor. -/
def runRows {L Px σ : Type} (read_next : L → List Nat → Except Error Px × L)
    (set_px : σ → Vec2 → Px → σ) (init : L) (w : Nat) (base : Vec2) :
    List (Nat × List Nat) → σ → LoopResult σ
  | [], s => .ok s
  | yl :: rest, s =>
    match runLine read_next set_px yl.2 base yl.1 (List.range w) init s with
    | .err e s2 => .err e s2
    | .ok s2 => runRows read_next set_px init w base rest s2

/-- `ChannelsReader::read_block` (`specific_channels.rs:176-200`):
validate the block's byte length, split the bytes into rows, and decode
row by row, column by column, into the pixel storage. The two panics of
the source (`chunks_exact` on a zero chunk size, and the row-count
assertion) are modelled as `panicked` outcomes. -/
def read_block {L Px σ : Type} (read_next : L → List Nat → Except Error Px × L)
    (create_line : Nat → L) (set_px : σ → Vec2 → Px → σ)
    (header : Header) (storage : σ) (block : UncompressedBlock) : BlockOutcome σ :=
  if header.channels.bytes_per_pixel * block.index.pixel_size.area ≠ block.data.length then
    .err (.invalid "block size for header") storage
  else
    let pixels_per_line := block.index.pixel_size.x
    let line_bytes := pixels_per_line * header.channels.bytes_per_pixel
    if line_bytes = 0 then .panicked "chunk size must be non-zero" storage
    else
      let byte_lines := chunksExact line_bytes block.data
      if byte_lines.length ≠ block.index.pixel_size.y then
        .panicked "invalid byte count for pixel block height" storage
      else
        match runRows read_next set_px (create_line pixels_per_line) pixels_per_line
            block.index.pixel_position byte_lines.enum storage with
        | .ok s => .ok s
        | .err e s => .err e s

/-- `ChannelsReader::filter_block` (`specific_channels.rs:172-174`):
accept a block exactly when its tile belongs to the largest resolution
level; the chunk index is ignored. -/
def TileCoordinates.is_largest_resolution_level (t : TileCoordinates) : Bool :=
  t.level_index = ⟨0, 0⟩

/-- The block filter itself. -/
def filter_block (chunk_index : Nat) (tile : TileCoordinates) : Bool :=
  let _ := chunk_index
  tile.is_largest_resolution_level

/-- Modelled from the spec: the block-driving loop lives outside this
component; per the spec, a block is handed to `read_block` only when
`filter_block` accepts it, and is otherwise skipped entirely with the
storage untouched. -/
def process_block {L Px σ : Type} (read_next : L → List Nat → Except Error Px × L)
    (create_line : Nat → L) (set_px : σ → Vec2 → Px → σ) (header : Header)
    (chunk_index : Nat) (tile : TileCoordinates) (storage : σ)
    (block : UncompressedBlock) : BlockOutcome σ :=
  if filter_block chunk_index tile then
    read_block read_next create_line set_px header storage block
  else .ok storage

/-- `ChannelsInfo`: the resolved per-slot sample types plus the layer
resolution, handed to the storage factory. -/
structure ChannelsInfo where
  sample_types : SlotSampleType × SlotSampleType × SlotSampleType
  resolution : Vec2
deriving DecidableEq

/-- The state of a `SpecificChannelsReader` right after construction. -/
structure SpecificChannelsReader (σ : Type) where
  storage : σ
  info : ChannelsInfo
  pixel_reader : PixelReader3
deriving DecidableEq

/-- `ReadChannels::create_channels_reader` (`specific_channels.rs:122-135`):
reject deep layers, resolve the selection against the channel list, and
only then create the pixel storage. -/
def create_channels_reader {σ : Type} (create : ChannelsInfo → σ)
    (names : String × String × String) (kinds : SlotKind × SlotKind × SlotKind)
    (header : Header) : Except Error (SpecificChannelsReader σ) :=
  if header.deep then .error (.invalid "layer has deep data, no flat rgba data")
  else
    match inspect_channels names kinds header.channels with
    | .error e => .error e
    | .ok (sample_types, reader) =>
      let info : ChannelsInfo := ⟨sample_types, header.layer_size⟩
      .ok ⟨create info, info, reader⟩

/-- `LayerWriter<C>` (`write/layers.rs:26-30`): a single layer's channel
writer; the writer type `C` is abstract here, so block extraction takes
the channel writer's behavior as a function. -/
structure LayerWriter (C : Type) where
  channels : C
deriving DecidableEq

/-- `AllLayersWriter<C>` (`write/layers.rs:21-24`). -/
structure AllLayersWriter (C : Type) where
  layers : List (LayerWriter C)
deriving DecidableEq

/-- Rust slice indexing `l[a..b]`: the subslice when the range is valid,
`none` (a panic) otherwise. -/
def sliceRange {α : Type} (l : List α) (a b : Nat) : Option (List α) :=
  if a ≤ b ∧ b ≤ l.length then some ((l.drop a).take (b - a)) else none

/-- `LayersWriter for LayerWriter::extract_uncompressed_block`
(`write/layers.rs:96-100`): `headers.first().unwrap()` — `none` models
the unwrap panic on an empty header slice. -/
def LayerWriter.extract_uncompressed_block {C : Type}
    (extract : C → Header → BlockIndex → List Nat)
    (w : LayerWriter C) (headers : List Header) (block : BlockIndex) :
    Option (List Nat) :=
  headers.head?.map (fun h => extract w.channels h block)

/-- `LayersWriter for AllLayersWriter::extract_uncompressed_block`
(`write/layers.rs:90-94`): index the layer collection at `block.layer`
and pass the header subslice `headers[block.layer..block.layer]` down to
that layer's writer. `none` models the indexing/unwrap panics. -/
def AllLayersWriter.extract_uncompressed_block {C : Type}
    (extract : C → Header → BlockIndex → List Nat)
    (w : AllLayersWriter C) (headers : List Header) (block : BlockIndex) :
    Option (List Nat) :=
  match w.layers[block.layer]? with
  | none => none
  | some layer =>
    match sliceRange headers block.layer block.layer with
    | none => none
    | some hs => layer.extract_uncompressed_block extract hs block

/-! ### Helper definitions and lemmas for the proofs -/

/-- The channel list annotated the way the scan loop sees it: each entry
paired with its index and the cumulative byte offset of the entries
before it. -/
def annotatedFrom : Nat → Nat → List ChannelInfo → List ChannelIndexInfo
  | _, _, [] => []
  | idx, off, ch :: rest =>
    ⟨ch, off, idx⟩ :: annotatedFrom (idx + 1) (off + ch.sample_type.bytes_per_sample) rest

/-- Per-pixel byte size of a list of channels. -/
def sumBytes (l : List ChannelInfo) : Nat :=
  (l.map fun c => c.sample_type.bytes_per_sample).sum

/-- The last element of `l` if there is one, else the default `d`. -/
def lastOr {α : Type} : List α → Option α → Option α
  | [], d => d
  | a :: l, _ => lastOr l (some a)

/-- The slot assignments computed by the scan loop: each slot holds the
last entry (in channel-list order) that matched its name and no earlier
slot's name, or keeps its accumulator if no entry matched. -/
theorem inspectLoop_eq (n0 n1 n2 : String) (l : List ChannelInfo) :
    ∀ (idx off : Nat) (r0 r1 r2 : Option ChannelIndexInfo),
    inspectLoop n0 n1 n2 l idx off (r0, r1, r2) =
      (lastOr ((annotatedFrom idx off l).filter fun c => decide (c.info.name = n0)) r0,
       lastOr ((annotatedFrom idx off l).filter fun c =>
         decide (c.info.name = n1 ∧ c.info.name ≠ n0)) r1,
       lastOr ((annotatedFrom idx off l).filter fun c =>
         decide (c.info.name = n2 ∧ c.info.name ≠ n0 ∧ c.info.name ≠ n1)) r2) := by
  induction l with
  | nil => intro idx off r0 r1 r2; rfl
  | cons ch rest ih =>
    intro idx off r0 r1 r2
    by_cases h0 : ch.name = n0
    · simp [inspectLoop, annotatedFrom, List.filter_cons, h0, ih, lastOr]
    · by_cases h1 : ch.name = n1
      · have hn10 : ¬n1 = n0 := fun he => h0 (h1.trans he)
        simp [inspectLoop, annotatedFrom, List.filter_cons, h0, h1, hn10, ih, lastOr]
      · by_cases h2 : ch.name = n2
        · have hn20 : ¬n2 = n0 := fun he => h0 (h2.trans he)
          have hn21 : ¬n2 = n1 := fun he => h1 (h2.trans he)
          simp [inspectLoop, annotatedFrom, List.filter_cons, h0, h1, h2, hn20, hn21, ih, lastOr]
        · simp [inspectLoop, annotatedFrom, List.filter_cons, h0, h1, h2, ih]

theorem lastOr_eq_some {α : Type} :
    ∀ (l : List α) (d : Option α) (c : α), lastOr l d = some c → c ∈ l ∨ d = some c := by
  intro l
  induction l with
  | nil => intro d c h; exact Or.inr h
  | cons a t ih =>
    intro d c h
    rcases ih (some a) c h with hm | he
    · exact Or.inl (List.mem_cons_of_mem a hm)
    · exact Or.inl (by simp [Option.some_inj.mp he])

theorem lastOr_eq_none {α : Type} :
    ∀ (l : List α) (d : Option α), lastOr l d = none → l = [] ∧ d = none := by
  intro l
  induction l with
  | nil => intro d h; exact ⟨rfl, h⟩
  | cons a t ih =>
    intro d h
    rcases ih (some a) h with ⟨_, he⟩
    exact absurd he (by simp)

theorem annotatedFrom_map_info (l : List ChannelInfo) :
    ∀ (idx off : Nat), (annotatedFrom idx off l).map (fun c => c.info) = l := by
  induction l with
  | nil => intro idx off; rfl
  | cons ch rest ih => intro idx off; simp [annotatedFrom, ih]

/-- Every element of the annotated channel list carries its own index and
the cumulative byte size of the channels preceding it. -/
theorem mem_annotatedFrom (l : List ChannelInfo) :
    ∀ (idx off : Nat) (c : ChannelIndexInfo), c ∈ annotatedFrom idx off l →
      ∃ k, ∃ hk : k < l.length, c.channel_index = idx + k ∧ c.info = l.get ⟨k, hk⟩ ∧
        c.sample_byte_offset = off + sumBytes (l.take k) := by
  induction l with
  | nil => intro idx off c h; exact absurd h (by simp [annotatedFrom])
  | cons ch rest ih =>
    intro idx off c h
    rw [annotatedFrom, List.mem_cons] at h
    rcases h with h | h
    · exact ⟨0, by simp, by simp [h], by simp [h], by simp [h, sumBytes]⟩
    · obtain ⟨k, hk, hidx, hinfo, hoff⟩ := ih (idx + 1) (off + ch.sample_type.bytes_per_sample) c h
      refine ⟨k + 1, by simpa using hk, by omega, by simpa using hinfo, ?_⟩
      simp [sumBytes, List.take_succ_cons] at hoff ⊢
      omega

theorem chunksExact_length_aux (n : Nat) (hn : 0 < n) :
    ∀ (k : Nat) (l : List Nat), l.length ≤ k → (chunksExact n l).length = l.length / n := by
  intro k
  induction k with
  | zero =>
    intro l hl
    have h0 : l.length = 0 := Nat.le_zero.mp hl
    rw [chunksExact]
    have h2 : ¬(0 < n ∧ n ≤ l.length) := by omega
    rw [dif_neg h2]
    simp [h0]
  | succ k ih =>
    intro l hl
    rw [chunksExact]
    by_cases h : 0 < n ∧ n ≤ l.length
    · rw [dif_pos h, List.length_cons, ih (l.drop n) (by simp; omega)]
      rw [Nat.div_eq l.length n, if_pos h]
      simp only [List.length_drop]
    · have hlt : l.length < n := by omega
      rw [dif_neg h]
      simp [Nat.div_eq_of_lt hlt]

/-- `chunks_exact` yields `len / n` chunks. -/
theorem chunksExact_length (n : Nat) (hn : 0 < n) (l : List Nat) :
    (chunksExact n l).length = l.length / n :=
  chunksExact_length_aux n hn l.length l (Nat.le_refl _)

/-- Pure companion of `SlotLineReader.read_next_sample`: the sample it
yields and the cursor it leaves behind. -/
def slotNext : SlotLineReader → List Nat → SlotSample × SlotLineReader
  | .req s, bytes =>
    (.req (decodeSample s.1 (bytes.drop (min s.2 bytes.length))),
     .req (s.1, s.2 + s.1.bytes_per_sample))
  | .opt none, _ => (.opt none, .opt none)
  | .opt (some s), bytes =>
    (.opt (some (decodeSample s.1 (bytes.drop (min s.2 bytes.length)))),
     .opt (some (s.1, s.2 + s.1.bytes_per_sample)))

/-- Per-slot sample reads never return an error. -/
theorem slot_read_eq (r : SlotLineReader) (bytes : List Nat) :
    r.read_next_sample bytes = (.ok (slotNext r bytes).1, (slotNext r bytes).2) := by
  cases r with
  | req s => rfl
  | opt s =>
    cases s with
    | none => rfl
    | some t => rfl

/-- Pure companion of `read_next_pixel`. -/
def pixNext (r : LineReader3) (bytes : List Nat) : Pixel3 × LineReader3 :=
  (((slotNext r.1 bytes).1, (slotNext r.2.1 bytes).1, (slotNext r.2.2 bytes).1),
   ((slotNext r.1 bytes).2, (slotNext r.2.1 bytes).2, (slotNext r.2.2 bytes).2))

/-- Whole-pixel reads never return an error. -/
theorem pix_read_eq (r : LineReader3) (bytes : List Nat) :
    read_next_pixel r bytes = (.ok (pixNext r bytes).1, (pixNext r bytes).2) := by
  obtain ⟨a, b, c⟩ := r
  simp [read_next_pixel, pixNext, slot_read_eq]

/-- The pixels produced by `n` successive whole-pixel reads over one row
buffer, starting from line cursor `r`. -/
def linePixels (line : List Nat) : Nat → LineReader3 → List Pixel3
  | 0, _ => []
  | n + 1, r => (pixNext r line).1 :: linePixels line n (pixNext r line).2

theorem linePixels_length (line : List Nat) :
    ∀ (n : Nat) (r : LineReader3), (linePixels line n r).length = n := by
  intro n
  induction n with
  | zero => intro r; rfl
  | succ n ih => intro r; simp [linePixels, ih]

/-- The pixels of one row, decoded by a fresh per-row line cursor built
from the layer's pixel-reader template. -/
def rowPixels (pr : PixelReader3) (w : Nat) (line : List Nat) : List Pixel3 :=
  linePixels line w (create_pixel_reader_for_line pr w)

/-- A pixel sink that records every call, for observing the order and
positions of the sink invocations. -/
def traceSetPixel (s : List (Vec2 × Pixel3)) (p : Vec2) (px : Pixel3) :
    List (Vec2 × Pixel3) := s ++ [(p, px)]

theorem runLine_trace (line : List Nat) (base : Vec2) (y : Nat) :
    ∀ (xs : List Nat) (r : LineReader3) (s : List (Vec2 × Pixel3)),
    runLine read_next_pixel traceSetPixel line base y xs r s =
      .ok (s ++ (xs.zip (linePixels line xs.length r)).map
        (fun p => (⟨base.x + p.1, base.y + y⟩, p.2))) := by
  intro xs
  induction xs with
  | nil => intro r s; simp [runLine, linePixels]
  | cons x xs ih =>
    intro r s
    simp only [runLine, pix_read_eq, ih, List.length_cons, linePixels, traceSetPixel,
      List.zip_cons_cons, List.map_cons, List.cons_append, List.nil_append,
      List.append_assoc, List.singleton_append]

theorem runRows_trace (init : LineReader3) (w : Nat) (base : Vec2) :
    ∀ (rows : List (Nat × List Nat)) (s : List (Vec2 × Pixel3)),
    runRows read_next_pixel traceSetPixel init w base rows s =
      .ok (s ++ rows.flatMap (fun yl =>
        ((List.range w).zip (linePixels yl.2 w init)).map
          (fun p => (⟨base.x + p.1, base.y + yl.1⟩, p.2)))) := by
  intro rows
  induction rows with
  | nil => intro s; simp [runRows]
  | cons yl rest ih =>
    intro s
    simp only [runRows, runLine_trace, List.length_range, ih, List.flatMap_cons,
      List.append_assoc]

theorem runLine_ok {σ : Type} (set_px : σ → Vec2 → Pixel3 → σ) (line : List Nat)
    (base : Vec2) (y : Nat) :
    ∀ (xs : List Nat) (r : LineReader3) (s : σ),
    ∃ s2, runLine read_next_pixel set_px line base y xs r s = .ok s2 := by
  intro xs
  induction xs with
  | nil => intro r s; exact ⟨s, rfl⟩
  | cons x xs ih =>
    intro r s
    simp only [runLine, pix_read_eq]
    exact ih _ _

theorem runRows_ok {σ : Type} (set_px : σ → Vec2 → Pixel3 → σ) (init : LineReader3)
    (w : Nat) (base : Vec2) :
    ∀ (rows : List (Nat × List Nat)) (s : σ),
    ∃ s2, runRows read_next_pixel set_px init w base rows s = .ok s2 := by
  intro rows
  induction rows with
  | nil => intro s; exact ⟨s, rfl⟩
  | cons yl rest ih =>
    intro s
    obtain ⟨s2, h2⟩ := runLine_ok set_px yl.2 base yl.1 (List.range w) init s
    simp only [runRows, h2]
    exact ih s2

/-! ### Concrete fixtures used by witnesses and counterexamples -/

/-- A one-channel header for the write-path fixtures. -/
def headerA : Header := ⟨⟨[⟨"R", .F32⟩], 4⟩, ⟨1, 1⟩, false⟩

/-- A block index targeting layer 0. -/
def blockA : BlockIndex := ⟨0, ⟨0, 0⟩, ⟨1, 1⟩⟩

/-- A channel list with a duplicated name "R". -/
def dupChannelList : List ChannelInfo := [⟨"R", .F32⟩, ⟨"R", .U32⟩]

/-- A header whose channel list is [R, B] (no "G"), not deep. -/
def headerRB : Header := ⟨⟨[⟨"R", .F32⟩, ⟨"B", .F32⟩], 8⟩, ⟨4, 4⟩, false⟩

/-- The three-channel RGB/F32 list of the spec's resolution example. -/
def rgbChannelList : ChannelList := ⟨[⟨"R", .F32⟩, ⟨"G", .F32⟩, ⟨"B", .F32⟩], 12⟩

/-! ### Claim C1 -/

/-- C1: the claim says `AllLayersWriter::extract_uncompressed_block`
supplies layer `i`'s channel writer with exactly `headers[i]`. The code
instead slices `headers[block.layer..block.layer]`, which is always the
empty slice, so the inner `headers.first().unwrap()` panics: for every
valid layer index the dispatch panics (modelled as `none`) and no header
is ever supplied. -/
theorem c1_all_layers_dispatch_panics {C : Type}
    (extract : C → Header → BlockIndex → List Nat)
    (w : AllLayersWriter C) (headers : List Header) (block : BlockIndex)
    (h1 : block.layer < w.layers.length) (h2 : block.layer < headers.length) :
    AllLayersWriter.extract_uncompressed_block extract w headers block = none := by
  unfold AllLayersWriter.extract_uncompressed_block
  rw [List.getElem?_eq_getElem h1]
  unfold sliceRange
  rw [if_pos ⟨Nat.le_refl _, Nat.le_of_lt h2⟩]
  simp [LayerWriter.extract_uncompressed_block]

/-- C1 witness: a single-layer writer with its matching single header and
a block for layer 0 — a valid index into both collections — still
produces no block (the unwrap panic). -/
theorem c1_all_layers_dispatch_panics_witness :
    blockA.layer < (AllLayersWriter.mk (C := Unit) [⟨()⟩]).layers.length ∧
    blockA.layer < [headerA].length ∧
    AllLayersWriter.extract_uncompressed_block (fun _ _ _ => ([] : List Nat))
      (AllLayersWriter.mk (C := Unit) [⟨()⟩]) [headerA] blockA = none :=
  ⟨by decide, by decide,
   c1_all_layers_dispatch_panics (fun _ _ _ => []) ⟨[⟨()⟩]⟩ [headerA] blockA
     (by decide) (by decide)⟩

/-! ### Claim C2 -/

/-- C2 counterexample: with channel list [R:F32, R:U32] and requested
names (R, G, B), the claim predicts that slot R records the first
matching entry (index 0, offset 0); the scan loop in fact records the
second one (index 1, offset 4), because each match overwrites the slot. -/
theorem c2_first_match_wins_is_false :
    (inspectLoop "R" "G" "B" dupChannelList 0 0 (none, none, none)).1 =
      some ⟨⟨"R", .U32⟩, 4, 1⟩ ∧
    (inspectLoop "R" "G" "B" dupChannelList 0 0 (none, none, none)).1 ≠
      some ⟨⟨"R", .F32⟩, 0, 0⟩ := by
  constructor
  · decide
  · decide

/-- C2 (amended): for every selection and channel list, each slot of the
scan loop records the LAST entry, in channel-list order, whose name
matches that slot's requested name and no earlier slot's name (later
duplicates overwrite earlier matches), or resolves unmatched if no entry
matches. -/
theorem c2_duplicate_names_last_match_wins (n0 n1 n2 : String) (cl : ChannelList) :
    inspectLoop n0 n1 n2 cl.list 0 0 (none, none, none) =
      (lastOr ((annotatedFrom 0 0 cl.list).filter fun c => decide (c.info.name = n0)) none,
       lastOr ((annotatedFrom 0 0 cl.list).filter fun c =>
         decide (c.info.name = n1 ∧ c.info.name ≠ n0)) none,
       lastOr ((annotatedFrom 0 0 cl.list).filter fun c =>
         decide (c.info.name = n2 ∧ c.info.name ≠ n0 ∧ c.info.name ≠ n1)) none) :=
  inspectLoop_eq n0 n1 n2 cl.list 0 0 none none none

/-! ### Claim C3 -/

/-- Finalizing one slot either succeeds or fails with exactly the fixed
missing-channel message. -/
theorem create_reader_ok_or_missing (k : SlotKind) (r : Option ChannelIndexInfo) :
    (∃ v, create_channel_pixel_reader k r = .ok v) ∨
      create_channel_pixel_reader k r = .error (.invalid missingChannelMsg) := by
  cases k with
  | required =>
    cases r with
    | none => exact Or.inr rfl
    | some i => exact Or.inl ⟨_, rfl⟩
  | optional => exact Or.inl ⟨_, rfl⟩

/-- Finalizing a matched slot always succeeds. -/
theorem create_reader_some_ok (k : SlotKind) (i : ChannelIndexInfo) :
    ∃ v, create_channel_pixel_reader k (some i) = .ok v := by
  cases k with
  | required => exact ⟨_, rfl⟩
  | optional => exact ⟨_, rfl⟩

/-- C3 counterexample: the missing-required-channel failure carries one
fixed message whatever channel is absent — the same error for a missing
"G" as for a missing "Q" — and that message mentions neither the absent
channel nor the layer, contradicting the claim that the error names them. -/
theorem c3_error_does_not_name_channel :
    create_channels_reader (σ := Unit) (fun _ => ()) ("R", "G", "B")
        (.required, .required, .required) headerRB =
      .error (.invalid missingChannelMsg) ∧
    create_channels_reader (σ := Unit) (fun _ => ()) ("R", "Q", "B")
        (.required, .required, .required) headerRB =
      .error (.invalid missingChannelMsg) ∧
    ¬('G' ∈ missingChannelMsg.data) ∧ ¬('Q' ∈ missingChannelMsg.data) := by
  refine ⟨rfl, rfl, by decide, by decide⟩

/-- C3 (amended): whenever any required selection slot has no match in the
channel list, reader construction fails with the fixed invalid-input
error (whose constant message names neither the layer nor the channel),
before any block is processed, and no reader or storage is produced. -/
theorem c3_missing_required_channel_aborts {σ : Type} (create : ChannelsInfo → σ)
    (names : String × String × String) (kinds : SlotKind × SlotKind × SlotKind)
    (header : Header) (hdeep : header.deep = false)
    (h : (kinds.1 = .required ∧
            (inspectLoop names.1 names.2.1 names.2.2 header.channels.list 0 0
              (none, none, none)).1 = none) ∨
         (kinds.2.1 = .required ∧
            (inspectLoop names.1 names.2.1 names.2.2 header.channels.list 0 0
              (none, none, none)).2.1 = none) ∨
         (kinds.2.2 = .required ∧
            (inspectLoop names.1 names.2.1 names.2.2 header.channels.list 0 0
              (none, none, none)).2.2 = none)) :
    create_channels_reader create names kinds header =
      .error (.invalid missingChannelMsg) := by
  unfold create_channels_reader
  rw [hdeep]
  simp only [Bool.false_eq_true, if_false]
  simp only [inspect_channels]
  rcases h with ⟨hk, hr⟩ | ⟨hk, hr⟩ | ⟨hk, hr⟩
  · rw [hk, hr]
    rfl
  · rcases create_reader_ok_or_missing kinds.1
        (inspectLoop names.1 names.2.1 names.2.2 header.channels.list 0 0
          (none, none, none)).1 with ⟨⟨ta, ra⟩, hva⟩ | hva
    · rw [hva, hk, hr]
      rfl
    · rw [hva]
  · rcases create_reader_ok_or_missing kinds.1
        (inspectLoop names.1 names.2.1 names.2.2 header.channels.list 0 0
          (none, none, none)).1 with ⟨⟨ta, ra⟩, hva⟩ | hva
    · rcases create_reader_ok_or_missing kinds.2.1
          (inspectLoop names.1 names.2.1 names.2.2 header.channels.list 0 0
            (none, none, none)).2.1 with ⟨⟨tb, rb⟩, hvb⟩ | hvb
      · rw [hva, hvb, hk, hr]
        rfl
      · rw [hva, hvb]
    · rw [hva]

/-- C3 witness: the amended theorem applied to the [R, B] header with a
required "G" slot. -/
theorem c3_missing_required_channel_aborts_witness :
    headerRB.deep = false ∧
    create_channels_reader (σ := Unit) (fun _ => ()) ("R", "G", "Z")
        (.optional, .required, .optional) headerRB =
      .error (.invalid missingChannelMsg) :=
  ⟨rfl, c3_missing_required_channel_aborts (fun _ => ()) ("R", "G", "Z")
    (.optional, .required, .optional) headerRB rfl
    (Or.inr (Or.inl ⟨rfl, by decide⟩))⟩

/-! ### Claim C6 -/

theorem lastOr_cases {α : Type} :
    ∀ (l : List α) (d : Option α), l = [] ∨ ∃ a, a ∈ l ∧ lastOr l d = some a := by
  intro l
  induction l with
  | nil => intro d; exact Or.inl rfl
  | cons a t ih =>
    intro d
    rcases ih (some a) with he | ⟨b, hb, hlast⟩
    · subst he
      exact Or.inr ⟨a, by simp, rfl⟩
    · exact Or.inr ⟨b, List.mem_cons_of_mem a hb, hlast⟩

/-- What the claim asserts of one matched slot: its recorded entry sits at
its recorded index of the channel list, its planar byte offset is the
cumulative per-pixel byte size of the preceding channels, and its per-row
line cursor starts at that offset times the row width. -/
def offsetSpec (cl : ChannelList) (w : Nat) (c : ChannelIndexInfo) : Prop :=
  ∃ k, ∃ hk : k < cl.list.length, c.channel_index = k ∧ c.info = cl.list.get ⟨k, hk⟩ ∧
    c.sample_byte_offset = sumBytes (cl.list.take k) ∧
    create_channel_line_reader c w = (c.info.sample_type, sumBytes (cl.list.take k) * w)

theorem slot_offset_spec (cl : ChannelList) (w : Nat) (p : ChannelIndexInfo → Bool)
    (c : ChannelIndexInfo)
    (h : lastOr ((annotatedFrom 0 0 cl.list).filter p) none = some c) :
    offsetSpec cl w c := by
  rcases lastOr_eq_some _ _ _ h with hm | he
  · have hal : c ∈ annotatedFrom 0 0 cl.list := List.mem_of_mem_filter hm
    obtain ⟨k, hk, hidx, hinfo, hoff⟩ := mem_annotatedFrom cl.list 0 0 c hal
    have hoff2 : c.sample_byte_offset = sumBytes (cl.list.take k) := by omega
    exact ⟨k, hk, by omega, hinfo, hoff2,
      by rw [create_channel_line_reader, hoff2]⟩
  · exact absurd he (by simp)

/-- C6: every matched selection slot records the cumulative per-pixel
byte size of the channels preceding it as its planar byte offset, and its
per-row line cursor starts at that offset times the row width; for the
channel list [R:F32, G:F32, B:F32] with all of (R, G, B) required, the
per-pixel byte offsets are 0, 4, 8 and the per-row cursors start at
0, 4*w, 8*w. -/
theorem c6_planar_byte_offsets (n0 n1 n2 : String) (cl : ChannelList) (w : Nat) :
    (∀ c, (inspectLoop n0 n1 n2 cl.list 0 0 (none, none, none)).1 = some c →
      offsetSpec cl w c) ∧
    (∀ c, (inspectLoop n0 n1 n2 cl.list 0 0 (none, none, none)).2.1 = some c →
      offsetSpec cl w c) ∧
    (∀ c, (inspectLoop n0 n1 n2 cl.list 0 0 (none, none, none)).2.2 = some c →
      offsetSpec cl w c) ∧
    inspect_channels ("R", "G", "B") (.required, .required, .required) rgbChannelList =
      .ok ((.req ⟨"R", .F32⟩, .req ⟨"G", .F32⟩, .req ⟨"B", .F32⟩),
           (.req ⟨⟨"R", .F32⟩, 0, 0⟩, .req ⟨⟨"G", .F32⟩, 4, 1⟩,
            .req ⟨⟨"B", .F32⟩, 8, 2⟩)) ∧
    create_pixel_reader_for_line
        (.req ⟨⟨"R", .F32⟩, 0, 0⟩, .req ⟨⟨"G", .F32⟩, 4, 1⟩, .req ⟨⟨"B", .F32⟩, 8, 2⟩) w =
      (.req (.F32, 0), .req (.F32, 4 * w), .req (.F32, 8 * w)) := by
  refine ⟨?_, ?_, ?_, by rfl, ?_⟩
  · intro c hc
    rw [inspectLoop_eq] at hc
    exact slot_offset_spec cl w _ c hc
  · intro c hc
    rw [inspectLoop_eq] at hc
    exact slot_offset_spec cl w _ c hc
  · intro c hc
    rw [inspectLoop_eq] at hc
    exact slot_offset_spec cl w _ c hc
  · simp [create_pixel_reader_for_line, SlotPixelReader.create_channel_line_reader,
      create_channel_line_reader]

/-- C6 witness: the slot-offset property instantiated on the G slot of
the RGB example. -/
theorem c6_planar_byte_offsets_witness :
    offsetSpec rgbChannelList 5 ⟨⟨"G", .F32⟩, 4, 1⟩ :=
  (c6_planar_byte_offsets "R" "G" "B" rgbChannelList 5).2.1 ⟨⟨"G", .F32⟩, 4, 1⟩
    (by decide)

/-! ### Claim C10 -/

/-- The channel list contains a channel named `m` exactly when the
annotated list does. -/
theorem annotated_mem_name (cl : ChannelList) (m : String)
    (hm : ∃ ch ∈ cl.list, ch.name = m) :
    ∃ c ∈ annotatedFrom 0 0 cl.list, c.info.name = m := by
  obtain ⟨ch, hch, hname⟩ := hm
  have hmap := annotatedFrom_map_info cl.list 0 0
  rw [← hmap] at hch
  obtain ⟨c, hc, hci⟩ := List.mem_map.mp hch
  exact ⟨c, hc, by rw [hci, hname]⟩

/-- If some element satisfies the filter, the filtered list has a last
element, and it satisfies the filter. -/
theorem lastOr_filter_some (l : List ChannelIndexInfo) (p : ChannelIndexInfo → Bool)
    (h : ∃ c ∈ l, p c = true) :
    ∃ a, lastOr (l.filter p) none = some a ∧ p a = true := by
  obtain ⟨c0, hc0, hp0⟩ := h
  have hfil : c0 ∈ l.filter p := List.mem_filter.mpr ⟨hc0, hp0⟩
  rcases lastOr_cases (l.filter p) none with he | ⟨a, ha, hlast⟩
  · rw [he] at hfil
    exact absurd hfil (List.not_mem_nil c0)
  · exact ⟨a, hlast, (List.mem_filter.mp ha).2⟩

/-- If any required slot of the selection is unmatched by the scan loop,
`inspect_channels` fails with the fixed missing-channel error. -/
theorem inspect_channels_required_unmatched (n0 n1 n2 : String)
    (k1 k2 k3 : SlotKind) (cl : ChannelList)
    (h : (k1 = .required ∧
            (inspectLoop n0 n1 n2 cl.list 0 0 (none, none, none)).1 = none) ∨
         (k2 = .required ∧
            (inspectLoop n0 n1 n2 cl.list 0 0 (none, none, none)).2.1 = none) ∨
         (k3 = .required ∧
            (inspectLoop n0 n1 n2 cl.list 0 0 (none, none, none)).2.2 = none)) :
    inspect_channels (n0, n1, n2) (k1, k2, k3) cl =
      .error (.invalid missingChannelMsg) := by
  simp only [inspect_channels]
  rcases h with ⟨hk, hr⟩ | ⟨hk, hr⟩ | ⟨hk, hr⟩
  · rw [hk, hr]
    rfl
  · rcases create_reader_ok_or_missing k1
        (inspectLoop n0 n1 n2 cl.list 0 0 (none, none, none)).1
      with ⟨⟨ta, ra⟩, hva⟩ | hva
    · rw [hva, hk, hr]
      rfl
    · rw [hva]
  · rcases create_reader_ok_or_missing k1
        (inspectLoop n0 n1 n2 cl.list 0 0 (none, none, none)).1
      with ⟨⟨ta, ra⟩, hva⟩ | hva
    · rcases create_reader_ok_or_missing k2
          (inspectLoop n0 n1 n2 cl.list 0 0 (none, none, none)).2.1
        with ⟨⟨tb, rb⟩, hvb⟩ | hvb
      · rw [hva, hvb, hk, hr]
        rfl
      · rw [hva, hvb]
    · rw [hva]

/-- Inversion of a successful `inspect_channels`: each slot's
finalization succeeded and produced that slot's components. -/
theorem inspect_channels_ok_inv (n0 n1 n2 : String) (k1 k2 k3 : SlotKind)
    (cl : ChannelList) (t : SlotSampleType × SlotSampleType × SlotSampleType)
    (r : SlotPixelReader × SlotPixelReader × SlotPixelReader)
    (hok : inspect_channels (n0, n1, n2) (k1, k2, k3) cl = .ok (t, r)) :
    create_channel_pixel_reader k1
        (inspectLoop n0 n1 n2 cl.list 0 0 (none, none, none)).1 = .ok (t.1, r.1) ∧
    create_channel_pixel_reader k2
        (inspectLoop n0 n1 n2 cl.list 0 0 (none, none, none)).2.1 = .ok (t.2.1, r.2.1) ∧
    create_channel_pixel_reader k3
        (inspectLoop n0 n1 n2 cl.list 0 0 (none, none, none)).2.2 = .ok (t.2.2, r.2.2) := by
  simp only [inspect_channels] at hok
  rcases create_reader_ok_or_missing k1
      (inspectLoop n0 n1 n2 cl.list 0 0 (none, none, none)).1
    with ⟨⟨ta, ra⟩, hva⟩ | hva
  · rw [hva] at hok
    rcases create_reader_ok_or_missing k2
        (inspectLoop n0 n1 n2 cl.list 0 0 (none, none, none)).2.1
      with ⟨⟨tb, rb⟩, hvb⟩ | hvb
    · rw [hvb] at hok
      rcases create_reader_ok_or_missing k3
          (inspectLoop n0 n1 n2 cl.list 0 0 (none, none, none)).2.2
        with ⟨⟨tc, rc⟩, hvc⟩ | hvc
      · rw [hvc] at hok
        injection hok with h2
        injection h2 with ht hr2
        refine ⟨?_, ?_, ?_⟩
        · rw [← ht, ← hr2]
          exact hva
        · rw [← ht, ← hr2]
          exact hvb
        · rw [← ht, ← hr2]
          exact hvc
      · rw [hvc] at hok
        cases hok
    · rw [hvb] at hok
      cases hok
  · rw [hva] at hok
    cases hok

/-- C10: for every way two distinct selection slots can request the same
present name `m` — slots 1 and 2 (selection `(m, m, nb)`), slots 1 and 3
(selection `(m, nb, m)`), or slots 2 and 3 (selection `(na, m, m)` with
`na ≠ m`) — only the earliest such slot resolves to a channel of that
name; the later slot with the same name stays unmatched because the
if/else-if chain is exclusive, which is a construction error when that
slot is required and Absent when it is optional. (A triple duplicate
`(m, m, m)` is the first two cases with `nb := m`.) -/
theorem c10_duplicate_selection_first_slot_wins (m na nb : String)
    (cl : ChannelList) (ka kb kc : SlotKind)
    (hm : ∃ ch ∈ cl.list, ch.name = m) (hne : na ≠ m) :
    ((∃ c, (inspectLoop m m nb cl.list 0 0 (none, none, none)).1 = some c ∧
        c.info.name = m) ∧
      (inspectLoop m m nb cl.list 0 0 (none, none, none)).2.1 = none ∧
      inspect_channels (m, m, nb) (ka, .required, kc) cl =
        .error (.invalid missingChannelMsg) ∧
      (∀ t r, inspect_channels (m, m, nb) (ka, .optional, kc) cl = .ok (t, r) →
        t.2.1 = .opt none ∧ r.2.1 = .opt none)) ∧
    ((∃ c, (inspectLoop m nb m cl.list 0 0 (none, none, none)).1 = some c ∧
        c.info.name = m) ∧
      (inspectLoop m nb m cl.list 0 0 (none, none, none)).2.2 = none ∧
      inspect_channels (m, nb, m) (ka, kb, .required) cl =
        .error (.invalid missingChannelMsg) ∧
      (∀ t r, inspect_channels (m, nb, m) (ka, kb, .optional) cl = .ok (t, r) →
        t.2.2 = .opt none ∧ r.2.2 = .opt none)) ∧
    ((∃ c, (inspectLoop na m m cl.list 0 0 (none, none, none)).2.1 = some c ∧
        c.info.name = m) ∧
      (inspectLoop na m m cl.list 0 0 (none, none, none)).2.2 = none ∧
      inspect_channels (na, m, m) (ka, kb, .required) cl =
        .error (.invalid missingChannelMsg) ∧
      (∀ t r, inspect_channels (na, m, m) (ka, kb, .optional) cl = .ok (t, r) →
        t.2.2 = .opt none ∧ r.2.2 = .opt none)) := by
  have hann := annotated_mem_name cl m hm
  have hA1 : ∃ c, (inspectLoop m m nb cl.list 0 0 (none, none, none)).1 = some c ∧
      c.info.name = m := by
    rw [inspectLoop_eq]
    obtain ⟨a, ha, hp⟩ := lastOr_filter_some (annotatedFrom 0 0 cl.list)
      (fun c => decide (c.info.name = m))
      (by obtain ⟨c0, hc0, hn0⟩ := hann
          exact ⟨c0, hc0, by simp only [hn0, decide_eq_true_eq]⟩)
    exact ⟨a, ha, of_decide_eq_true hp⟩
  have hA2 : (inspectLoop m m nb cl.list 0 0 (none, none, none)).2.1 = none := by
    rw [inspectLoop_eq]
    have hnil : (annotatedFrom 0 0 cl.list).filter
        (fun c => decide (c.info.name = m ∧ c.info.name ≠ m)) = [] := by
      apply List.filter_eq_nil_iff.mpr
      intro a _
      simp only [decide_eq_true_eq]
      tauto
    rw [hnil]
    rfl
  have hB1 : ∃ c, (inspectLoop m nb m cl.list 0 0 (none, none, none)).1 = some c ∧
      c.info.name = m := by
    rw [inspectLoop_eq]
    obtain ⟨a, ha, hp⟩ := lastOr_filter_some (annotatedFrom 0 0 cl.list)
      (fun c => decide (c.info.name = m))
      (by obtain ⟨c0, hc0, hn0⟩ := hann
          exact ⟨c0, hc0, by simp only [hn0, decide_eq_true_eq]⟩)
    exact ⟨a, ha, of_decide_eq_true hp⟩
  have hB2 : (inspectLoop m nb m cl.list 0 0 (none, none, none)).2.2 = none := by
    rw [inspectLoop_eq]
    have hnil : (annotatedFrom 0 0 cl.list).filter
        (fun c => decide (c.info.name = m ∧ c.info.name ≠ m ∧ c.info.name ≠ nb)) = [] := by
      apply List.filter_eq_nil_iff.mpr
      intro a _
      simp only [decide_eq_true_eq]
      tauto
    rw [hnil]
    rfl
  have hC1 : ∃ c, (inspectLoop na m m cl.list 0 0 (none, none, none)).2.1 = some c ∧
      c.info.name = m := by
    rw [inspectLoop_eq]
    obtain ⟨a, ha, hp⟩ := lastOr_filter_some (annotatedFrom 0 0 cl.list)
      (fun c => decide (c.info.name = m ∧ c.info.name ≠ na))
      (by obtain ⟨c0, hc0, hn0⟩ := hann
          refine ⟨c0, hc0, ?_⟩
          simp only [hn0, decide_eq_true_eq, ne_eq]
          exact ⟨by trivial, fun he => hne he.symm⟩)
    exact ⟨a, ha, (of_decide_eq_true hp).1⟩
  have hC2 : (inspectLoop na m m cl.list 0 0 (none, none, none)).2.2 = none := by
    rw [inspectLoop_eq]
    have hnil : (annotatedFrom 0 0 cl.list).filter
        (fun c => decide (c.info.name = m ∧ c.info.name ≠ na ∧ c.info.name ≠ m)) = [] := by
      apply List.filter_eq_nil_iff.mpr
      intro a _
      simp only [decide_eq_true_eq]
      tauto
    rw [hnil]
    rfl
  refine ⟨⟨hA1, hA2, ?_, ?_⟩, ⟨hB1, hB2, ?_, ?_⟩, ⟨hC1, hC2, ?_, ?_⟩⟩
  · exact inspect_channels_required_unmatched m m nb ka .required kc cl
      (Or.inr (Or.inl ⟨rfl, hA2⟩))
  · intro t r hok
    have hinv := (inspect_channels_ok_inv m m nb ka .optional kc cl t r hok).2.1
    rw [hA2] at hinv
    injection hinv with h2
    exact ⟨(congrArg Prod.fst h2).symm, (congrArg Prod.snd h2).symm⟩
  · exact inspect_channels_required_unmatched m nb m ka kb .required cl
      (Or.inr (Or.inr ⟨rfl, hB2⟩))
  · intro t r hok
    have hinv := (inspect_channels_ok_inv m nb m ka kb .optional cl t r hok).2.2
    rw [hB2] at hinv
    injection hinv with h2
    exact ⟨(congrArg Prod.fst h2).symm, (congrArg Prod.snd h2).symm⟩
  · exact inspect_channels_required_unmatched na m m ka kb .required cl
      (Or.inr (Or.inr ⟨rfl, hC2⟩))
  · intro t r hok
    have hinv := (inspect_channels_ok_inv na m m ka kb .optional cl t r hok).2.2
    rw [hC2] at hinv
    injection hinv with h2
    exact ⟨(congrArg Prod.fst h2).symm, (congrArg Prod.snd h2).symm⟩

/-- C10 witness: the slots-2-and-3 duplicate configuration on the list
[R:F32] with selection (X, R, R): slot 2 resolves to R, slot 3 is
unmatched, and a required slot 3 makes resolution fail. -/
theorem c10_duplicate_selection_first_slot_wins_witness :
    (∃ c, (inspectLoop "X" "R" "R" [⟨"R", .F32⟩] 0 0 (none, none, none)).2.1 = some c ∧
      c.info.name = "R") ∧
    (inspectLoop "X" "R" "R" [⟨"R", .F32⟩] 0 0 (none, none, none)).2.2 = none ∧
    inspect_channels ("X", "R", "R") (.optional, .optional, .required)
        ⟨[⟨"R", .F32⟩], 4⟩ = .error (.invalid missingChannelMsg) :=
  ⟨(c10_duplicate_selection_first_slot_wins "R" "X" "G" ⟨[⟨"R", .F32⟩], 4⟩
      .optional .optional .required ⟨⟨"R", .F32⟩, by decide, rfl⟩ (by decide)).2.2.1,
   (c10_duplicate_selection_first_slot_wins "R" "X" "G" ⟨[⟨"R", .F32⟩], 4⟩
      .optional .optional .required ⟨⟨"R", .F32⟩, by decide, rfl⟩ (by decide)).2.2.2.1,
   (c10_duplicate_selection_first_slot_wins "R" "X" "G" ⟨[⟨"R", .F32⟩], 4⟩
      .optional .optional .required ⟨⟨"R", .F32⟩, by decide, rfl⟩ (by decide)).2.2.2.2.1⟩

/-! ### Claim C4 -/

/-- C4: a present-slot line cursor whose byte index lies past the end of
the row buffer clamps its read position to the buffer end (decoding from
the empty remainder), still advances the index by the encoding's byte
width (2 for F16, 4 for F32, 4 for U32), and returns `ok`, never an
error, for the overrun. -/
theorem c4_overrun_clamped_not_an_error (st : SampleType) (idx : Nat)
    (bytes : List Nat) (h : bytes.length ≤ idx) :
    read_next_sample (st, idx) bytes =
      (.ok (decodeSample st []), (st, idx + st.bytes_per_sample)) ∧
    SampleType.bytes_per_sample .F16 = 2 ∧
    SampleType.bytes_per_sample .F32 = 4 ∧
    SampleType.bytes_per_sample .U32 = 4 := by
  refine ⟨?_, rfl, rfl, rfl⟩
  simp [read_next_sample, readSample, Nat.min_eq_right h, List.drop_length]

/-- C4 witness: index 10 on a 3-byte row buffer. -/
theorem c4_overrun_clamped_not_an_error_witness :
    ([1, 2, 3] : List Nat).length ≤ 10 ∧
    read_next_sample (.F16, 10) [1, 2, 3] =
      (.ok (decodeSample .F16 []), (.F16, 10 + SampleType.bytes_per_sample .F16)) :=
  ⟨by decide, (c4_overrun_clamped_not_an_error .F16 10 [1, 2, 3] (by decide)).1⟩

/-! ### Claim C5 -/

/-- C5: `read_block` returns the invalid-block error exactly when the
block's byte length differs from `bytes_per_pixel * pixelSize.area`, and
in that case the pixel storage is returned unchanged (the sink is never
called, since the validation precedes the decode loop). -/
theorem c5_invalid_block_iff_size_mismatch {σ : Type} (set_px : σ → Vec2 → Pixel3 → σ)
    (pr : PixelReader3) (header : Header) (s0 : σ) (block : UncompressedBlock) :
    (header.channels.bytes_per_pixel * block.index.pixel_size.area ≠ block.data.length →
      read_block read_next_pixel (create_pixel_reader_for_line pr) set_px header s0 block =
        .err (.invalid "block size for header") s0) ∧
    (∀ s2,
      read_block read_next_pixel (create_pixel_reader_for_line pr) set_px header s0 block =
          .err (.invalid "block size for header") s2 →
      header.channels.bytes_per_pixel * block.index.pixel_size.area ≠ block.data.length ∧
        s2 = s0) := by
  constructor
  · intro hne
    rw [read_block, if_pos hne]
  · intro s2 hres
    by_cases hne :
        header.channels.bytes_per_pixel * block.index.pixel_size.area ≠ block.data.length
    · rw [read_block, if_pos hne] at hres
      injection hres with h1 h2
      exact ⟨hne, h2.symm⟩
    · exfalso
      simp only [read_block, if_neg hne] at hres
      by_cases hlb : block.index.pixel_size.x * header.channels.bytes_per_pixel = 0
      · rw [if_pos hlb] at hres
        cases hres
      · rw [if_neg hlb] at hres
        by_cases hlen :
            (chunksExact (block.index.pixel_size.x * header.channels.bytes_per_pixel)
              block.data).length ≠ block.index.pixel_size.y
        · rw [if_pos hlen] at hres
          cases hres
        · rw [if_neg hlen] at hres
          obtain ⟨s3, h3⟩ := runRows_ok set_px
            (create_pixel_reader_for_line pr block.index.pixel_size.x)
            block.index.pixel_size.x block.index.pixel_position
            (chunksExact (block.index.pixel_size.x * header.channels.bytes_per_pixel)
              block.data).enum s0
          rw [h3] at hres
          cases hres

/-- A pixel reader all of whose slots are optional and absent. -/
def prAbsent : PixelReader3 := (.opt none, .opt none, .opt none)

/-- A header declaring the RGB/F32 list (12 bytes per pixel). -/
def headerRGB : Header := ⟨rgbChannelList, ⟨2, 2⟩, false⟩

/-- A 2x2 block claiming 40 bytes where 48 are required. -/
def blockBadSize : UncompressedBlock := ⟨⟨0, ⟨0, 0⟩, ⟨2, 2⟩⟩, List.replicate 40 0⟩

/-- C5 witness: the 2x2, 40-byte block against the 12-byte-per-pixel
header is rejected with the storage unchanged. -/
theorem c5_invalid_block_iff_size_mismatch_witness :
    headerRGB.channels.bytes_per_pixel * blockBadSize.index.pixel_size.area ≠
      blockBadSize.data.length ∧
    read_block read_next_pixel (create_pixel_reader_for_line prAbsent) traceSetPixel
      headerRGB ([] : List (Vec2 × Pixel3)) blockBadSize =
        .err (.invalid "block size for header") [] :=
  ⟨by decide,
   (c5_invalid_block_iff_size_mismatch traceSetPixel prAbsent headerRGB [] blockBadSize).1
     (by decide)⟩

/-! ### Claim C7 -/

/-- C7 counterexample: a zero-width one-row block with an empty byte
buffer passes size validation (`4 * 0 = 0`), yet `read_block` panics at
the row-splitting step (`chunks_exact` with chunk size 0) instead of
iterating its single row and completing with the storage unchanged. -/
theorem c7_zero_width_block_panics :
    headerA.channels.bytes_per_pixel *
      (UncompressedBlock.mk ⟨0, ⟨0, 0⟩, ⟨0, 1⟩⟩ []).index.pixel_size.area =
      (UncompressedBlock.mk ⟨0, ⟨0, 0⟩, ⟨0, 1⟩⟩ []).data.length ∧
    read_block read_next_pixel (create_pixel_reader_for_line prAbsent) traceSetPixel
        headerA ([] : List (Vec2 × Pixel3)) ⟨⟨0, ⟨0, 0⟩, ⟨0, 1⟩⟩, []⟩ =
      .panicked "chunk size must be non-zero" [] ∧
    read_block read_next_pixel (create_pixel_reader_for_line prAbsent) traceSetPixel
        headerA ([] : List (Vec2 × Pixel3)) ⟨⟨0, ⟨0, 0⟩, ⟨0, 1⟩⟩, []⟩ ≠
      .ok [] := by
  refine ⟨by decide, by decide, by decide⟩

/-- C7 (amended): for every block that passes size validation and whose
pixel width and per-pixel byte size are positive, `read_block` succeeds,
iterating rows top-to-bottom and columns left-to-right, invoking the
pixel sink exactly once per pixel at `pixel_position + (x, y)`, with each
row decoded by a fresh line cursor built from the per-layer template
(`rowPixels` starts from `create_pixel_reader_for_line pr w` for every
row); if the width or the per-pixel byte size is zero, the row-splitting
step panics instead. -/
theorem c7_read_block_row_major_trace (pr : PixelReader3) (header : Header)
    (block : UncompressedBlock) (s0 : List (Vec2 × Pixel3))
    (hsize : header.channels.bytes_per_pixel * block.index.pixel_size.area =
      block.data.length)
    (hw : 0 < block.index.pixel_size.x)
    (hbpp : 0 < header.channels.bytes_per_pixel) :
    read_block read_next_pixel (create_pixel_reader_for_line pr) traceSetPixel header
        s0 block =
      .ok (s0 ++ (chunksExact (block.index.pixel_size.x * header.channels.bytes_per_pixel)
          block.data).enum.flatMap (fun yl =>
        ((List.range block.index.pixel_size.x).zip
            (rowPixels pr block.index.pixel_size.x yl.2)).map
          (fun p => (⟨block.index.pixel_position.x + p.1,
                      block.index.pixel_position.y + yl.1⟩, p.2)))) ∧
    (chunksExact (block.index.pixel_size.x * header.channels.bytes_per_pixel)
        block.data).length = block.index.pixel_size.y ∧
    ∀ line, (rowPixels pr block.index.pixel_size.x line).length =
      block.index.pixel_size.x := by
  have hlb : block.index.pixel_size.x * header.channels.bytes_per_pixel ≠ 0 :=
    Nat.mul_ne_zero (Nat.pos_iff_ne_zero.mp hw) (Nat.pos_iff_ne_zero.mp hbpp)
  have hlen : (chunksExact (block.index.pixel_size.x * header.channels.bytes_per_pixel)
      block.data).length = block.index.pixel_size.y := by
    rw [chunksExact_length _ (Nat.pos_of_ne_zero hlb), ← hsize, Vec2.area]
    rw [show header.channels.bytes_per_pixel *
        (block.index.pixel_size.x * block.index.pixel_size.y) =
        (block.index.pixel_size.x * header.channels.bytes_per_pixel) *
          block.index.pixel_size.y from by ring]
    exact Nat.mul_div_cancel_left _ (Nat.pos_of_ne_zero hlb)
  refine ⟨?_, hlen, fun line => linePixels_length _ _ _⟩
  have hne : ¬(header.channels.bytes_per_pixel * block.index.pixel_size.area ≠
      block.data.length) := fun hc => hc hsize
  simp only [read_block, if_neg hne, if_neg hlb, hlen]
  rw [if_neg (fun hc : block.index.pixel_size.y ≠ block.index.pixel_size.y => hc rfl)]
  rw [runRows_trace]
  rfl

/-- A header with the single channel R:F32. -/
def headerW : Header := ⟨⟨[⟨"R", .F32⟩], 4⟩, ⟨2, 2⟩, false⟩

/-- The matching single-slot pixel reader: R required, the rest absent. -/
def prW : PixelReader3 := (.req ⟨⟨"R", .F32⟩, 0, 0⟩, .opt none, .opt none)

/-- A 2x2 block of four F32 samples at origin (10, 20). -/
def blockW : UncompressedBlock :=
  ⟨⟨0, ⟨10, 20⟩, ⟨2, 2⟩⟩, [1, 0, 0, 0, 2, 0, 0, 0, 3, 0, 0, 0, 4, 0, 0, 0]⟩

/-- C7 witness: the row-major trace property on the concrete 2x2 block. -/
theorem c7_read_block_row_major_trace_witness :
    read_block read_next_pixel (create_pixel_reader_for_line prW) traceSetPixel headerW
        ([] : List (Vec2 × Pixel3)) blockW =
      .ok ([] ++ (chunksExact (blockW.index.pixel_size.x * headerW.channels.bytes_per_pixel)
          blockW.data).enum.flatMap (fun yl =>
        ((List.range blockW.index.pixel_size.x).zip
            (rowPixels prW blockW.index.pixel_size.x yl.2)).map
          (fun p => (⟨blockW.index.pixel_position.x + p.1,
                      blockW.index.pixel_position.y + yl.1⟩, p.2)))) ∧
    (chunksExact (blockW.index.pixel_size.x * headerW.channels.bytes_per_pixel)
        blockW.data).length = blockW.index.pixel_size.y ∧
    ∀ line, (rowPixels prW blockW.index.pixel_size.x line).length =
      blockW.index.pixel_size.x :=
  c7_read_block_row_major_trace prW headerW blockW [] (by decide) (by decide) (by decide)

/-! ### Claim C8 -/

/-- C8: a cursor for an optional slot that resolved to Absent yields
"no value" on every read, consumes no bytes and leaves its state
unchanged; its slot finalization and line-cursor construction produce the
`none` placeholders; and in a whole-pixel read the present slots decode
exactly what they would decode on their own, independent of the absent
middle slot. -/
theorem c8_absent_slot_reads_nothing (a c : SlotLineReader) (bytes : List Nat) (w : Nat) :
    read_next_sample_opt none bytes = (.ok none, none) ∧
    create_channel_pixel_reader .optional none = .ok (.opt none, .opt none) ∧
    create_channel_line_reader_opt none w = none ∧
    ∃ sa a2 sc c2,
      a.read_next_sample bytes = (.ok sa, a2) ∧
      c.read_next_sample bytes = (.ok sc, c2) ∧
      read_next_pixel (a, .opt none, c) bytes =
        (.ok (sa, .opt none, sc), (a2, .opt none, c2)) := by
  refine ⟨rfl, rfl, rfl, (slotNext a bytes).1, (slotNext a bytes).2,
    (slotNext c bytes).1, (slotNext c bytes).2,
    slot_read_eq a bytes, slot_read_eq c bytes, ?_⟩
  rw [pix_read_eq]
  rfl

/-! ### Claim C9 -/

/-- C9: the block filter accepts a block exactly when its tile lies on
the base (largest) resolution level, and a block on any other level is
skipped entirely by the driving loop, leaving the storage unchanged. -/
theorem c9_non_base_level_blocks_skipped {σ : Type} (set_px : σ → Vec2 → Pixel3 → σ)
    (pr : PixelReader3) (header : Header) (s0 : σ) (block : UncompressedBlock)
    (i : Nat) (tile : TileCoordinates) (h : tile.level_index ≠ (⟨0, 0⟩ : Vec2)) :
    (∀ (j : Nat) (t : TileCoordinates),
      filter_block j t = true ↔ t.level_index = (⟨0, 0⟩ : Vec2)) ∧
    filter_block i tile = false ∧
    process_block read_next_pixel (create_pixel_reader_for_line pr) set_px header i tile
      s0 block = .ok s0 := by
  have hiff : ∀ (j : Nat) (t : TileCoordinates),
      filter_block j t = true ↔ t.level_index = (⟨0, 0⟩ : Vec2) := by
    intro j t
    simp [filter_block, TileCoordinates.is_largest_resolution_level]
  have hf : filter_block i tile = false := by
    cases hb : filter_block i tile
    · rfl
    · exact absurd ((hiff i tile).mp hb) h
  refine ⟨hiff, hf, ?_⟩
  simp only [process_block, hf, Bool.false_eq_true, if_false]

/-- C9 witness: a mip-level-(1,0) tile is rejected and its block leaves
the trace storage untouched. -/
theorem c9_non_base_level_blocks_skipped_witness :
    (TileCoordinates.mk ⟨0, 0⟩ ⟨1, 0⟩).level_index ≠ (⟨0, 0⟩ : Vec2) ∧
    filter_block 0 ⟨⟨0, 0⟩, ⟨1, 0⟩⟩ = false ∧
    process_block read_next_pixel (create_pixel_reader_for_line prW) traceSetPixel
      headerW 0 ⟨⟨0, 0⟩, ⟨1, 0⟩⟩ ([] : List (Vec2 × Pixel3)) blockW = .ok [] :=
  ⟨by decide,
   (c9_non_base_level_blocks_skipped traceSetPixel prW headerW [] blockW 0
     ⟨⟨0, 0⟩, ⟨1, 0⟩⟩ (by decide)).2.1,
   (c9_non_base_level_blocks_skipped traceSetPixel prW headerW [] blockW 0
     ⟨⟨0, 0⟩, ⟨1, 0⟩⟩ (by decide)).2.2⟩

end ExrSpec
